import Mathlib

/-!
Shallow embedding of the `gemini_modern_terminal` session controller
(`src/components/Terminal.tsx`, `src/constants.ts`, `src/types.ts`) and
proofs of the frozen claims about it.

The TypeScript component is a sequential, event-driven state machine: user
events (typing, form submit, arrow keys, file selection) update a single
session state.  We embed that state machine as pure Lean functions over an
explicit `TermState`.  Backend calls (`geminiService.ts`) are external
collaborators: each submitted step is parametrised by a `StepEnv` that gives
the fragments / responses the backend produced during that step, and the
handlers record which backend entry points they invoked as a `BCall` trace.
JavaScript truthiness tests on strings (`if (file.type)`,
`if (documents[name])`, `if (!activeDoc)`, ...) are embedded as
emptiness tests on `Option String` / `String`, mirroring the source.
-/

namespace GeminiTerm

/-- `LineType` from `src/types.ts`. -/
inductive LineType
  | COMMAND
  | OUTPUT
  | ERROR
  | SYSTEM
  | CODE
  | IMAGE
  | VIDEO
  | SOURCES
deriving DecidableEq, Repr

/-- `Source` from `src/types.ts`: an entry of a grounded-search source list. -/
structure Source where
  title : String
  uri : String
deriving DecidableEq, Repr

/-- `Line` from `src/types.ts`.  The `text` field is `string | string[]` in the
source, embedded as a sum; `sources` is the optional source list. -/
structure Line where
  type : LineType
  text : String ⊕ List String
  sources : Option (List Source)
deriving DecidableEq, Repr

/-- A plain `{ type: LineType.OUTPUT, text }` record. -/
def outLine (t : String ⊕ List String) : Line := ⟨LineType.OUTPUT, t, none⟩

/-- A `{ type: LineType.ERROR, text }` record. -/
def errLine (s : String) : Line := ⟨LineType.ERROR, Sum.inl s, none⟩

/-- A `{ type: LineType.SYSTEM, text }` record. -/
def sysLine (s : String) : Line := ⟨LineType.SYSTEM, Sum.inl s, none⟩

/-- A `{ type: LineType.CODE, text }` record. -/
def codeLine (s : String) : Line := ⟨LineType.CODE, Sum.inl s, none⟩

/-- A `{ type: LineType.IMAGE, text: [base64, prompt] }` record. -/
def imageLine (b64 prompt : String) : Line := ⟨LineType.IMAGE, Sum.inr [b64, prompt], none⟩

/-- A `{ type: LineType.VIDEO, text: [objectUrl, prompt] }` record. -/
def videoLine (url prompt : String) : Line := ⟨LineType.VIDEO, Sum.inr [url, prompt], none⟩

/-- A `{ type: LineType.SOURCES, text: '', sources }` record
(`Terminal.tsx`, `handleSearch`). -/
def sourcesLine (srcs : List Source) : Line := ⟨LineType.SOURCES, Sum.inl "", some srcs⟩

/-- JavaScript truthiness of a `string | null | undefined` value:
`none` models `null`/`undefined`, and the empty string is falsy. -/
def optTruthy : Option String → Bool
  | none => false
  | some s => !(s == "")

/-! ### String primitives

The JavaScript string methods the component uses, defined over the
character list so that they compute by kernel reduction. -/

/-- `String.prototype.toLowerCase` (the source only ever lowercases ASCII
command tokens). -/
def toLowerStr (s : String) : String := String.mk (s.data.map Char.toLower)

/-- `String.prototype.trim`. -/
def trimStr (s : String) : String :=
  String.mk (((s.data.dropWhile Char.isWhitespace).reverse.dropWhile Char.isWhitespace).reverse)

/-- `str.split(c)` for a single-character separator: split at every
occurrence, separators dropped, `""` mapping to `[""]`. -/
def splitOnChar (s : String) (c : Char) : List String := (s.data.splitOn c).map String.mk

/-- `String.prototype.startsWith`. -/
def startsWithStr (s pre : String) : Bool := pre.data.isPrefixOf s.data

/-! ## Constants (`src/constants.ts`) -/

/-- `PROMPT_SYMBOL` from `src/constants.ts`. -/
def PROMPT_SYMBOL : String := "➜"

/-- `USERNAME` from `src/constants.ts`. -/
def USERNAME : String := "praveen"

/-- `HOSTNAME` from `src/constants.ts`. -/
def HOSTNAME : String := "gemini-os"

/-- `COMMANDS` from `src/constants.ts`. -/
def COMMANDS : List String :=
  ["help", "ask", "chat", "search", "code", "image", "editimg", "video",
   "upload", "docs", "chatdoc", "neofetch", "date", "whoami", "about", "clear"]

/-- `PRAVEEN_ASCII` from `src/constants.ts` (template literal, leading and
trailing line breaks included). -/
def PRAVEEN_ASCII : String :=
  "\n██████╗░░██████╗░░█████╗░██╗░░░██╗███████╗███████╗███╗░░██╗\n██╔══██╗██╔══██╗██╔══██╗██║░░░██║██╔════╝██╔════╝████╗░██║\n██████╔╝██████╔╝███████║╚██╗░██╔╝█████╗░░█████╗░░██╔██╗██║\n██╔═══╝░██╔══██╗██╔══██║░╚████╔╝░██╔══╝░░██╔══╝░░██║╚████║\n██║░░░░░██║░░██║██║░░██║░░╚██╔╝░░███████╗███████╗██║░╚███║\n╚═╝░░░░░╚═╝░░╚═╝╚═╝░░╚═╝░░░╚═╝░░░╚══════╝╚══════╝╚═╝░░╚══╝\n"

/-- `asciiWelcome` from `src/constants.ts`: the trimmed art split on line
breaks, each line a SYSTEM record. -/
def asciiWelcome : List Line :=
  (splitOnChar (trimStr PRAVEEN_ASCII) (Char.ofNat 10)).map (fun text => sysLine text)

/-- `WELCOME_LINES` from `src/constants.ts`. -/
def WELCOME_LINES : List Line :=
  asciiWelcome ++
  [sysLine " ",
   sysLine "Welcome to Gemini Terminal!",
   sysLine " ",
   sysLine "Try typing a command and press Tab for autocompletion.",
   sysLine "Type `help` to see a list of available commands.",
   sysLine "Type `ask <your question>` to talk to the AI for a single response.",
   sysLine "Type `chat` to start a persistent conversation with the AI.",
   sysLine "Type `search <your question>` to get answers on recent events from Google.",
   sysLine "Type `code <your coding question>` to get help from the AI Code Assistant.",
   sysLine "Type `image <your prompt>` to generate an image with AI.",
   sysLine "Type `editimg <your edit instruction>` to modify the last image.",
   sysLine "Type `video <your prompt>` to generate a video with AI.",
   sysLine "Type `upload` to select documents, `docs` to manage them, and `chatdoc` to chat.",
   sysLine "--------------------------------------------------"]

/-- `getCommandDescription` from `src/constants.ts`. -/
def getCommandDescription (command : String) : String :=
  match command with
  | "help" => "Shows this help message."
  | "ask" => "Ask the Gemini AI a single question."
  | "chat" => "Enter a persistent chat session with the AI."
  | "search" => "Ask AI with Google Search for up-to-date info."
  | "code" => "Ask the AI Code Assistant a question."
  | "image" => "Generate an image using AI."
  | "editimg" => "Edit the last generated image with a new prompt."
  | "video" => "Generate a video using AI. (This may take a few minutes)"
  | "upload" => "Upload a text document (.txt, .md, etc.) to chat with."
  | "docs" => "Manage documents (use: docs <list|select|clear>)."
  | "chatdoc" => "Enter a persistent chat session about the active document."
  | "neofetch" => "Display system information."
  | "date" => "Display the current date and time."
  | "whoami" => "Display the current user."
  | "about" => "Information about this terminal."
  | "clear" => "Clears the terminal screen."
  | _ => ""

/-- JavaScript `String.prototype.padEnd(n, ' ')`. -/
def padEnd (s : String) (n : Nat) : String :=
  s ++ String.mk (List.replicate (n - s.length) ' ')

/-- `HELP_TEXT` from `src/constants.ts`. -/
def HELP_TEXT : List String :=
  "Available Commands:" ::
    COMMANDS.map (fun cmd => "  " ++ padEnd cmd 12 ++ " - " ++ getCommandDescription cmd)

/-- `ABOUT_TEXT` from `src/constants.ts`. -/
def ABOUT_TEXT : List String :=
  ["Gemini Modern Terminal v1.0.0",
   "A React and Tailwind CSS project.",
   "Powered by the Google Gemini API."]

/-- `NEOFETCH_ASCII` from `src/constants.ts` (template literal). -/
def NEOFETCH_ASCII : String :=
  "\n        ..,,;;;::;,..\n   ..,;''             ''';,..\n .,'                      ',.\n,'                           ',\n/    ,gP\"\"\"\"\"\"\"\"\"Ybg,           \\\n|   i' ,d'\"Y'  'Y'\"b, 'i          |\n|   d' d'  '  '  'b 'b          |\n|   8  8   '  '   8  8          |\n|   I, Y,        ,P ,I          |\n|   'b, 'b,,,,,,d' ,d'          |\n|    'Y, ''YPPY'' ,P'           |\n\\     'b,      ,d'            /\n ',      'YMMMMY'       ,'\n  '.                   .'\n    ''';,         ,;'''\n        ''';;;;'''\n"

/-- The `neofetch` output lines (`Terminal.tsx`, case `'neofetch'`): the art
split on line breaks, with system information appended to fixed rows.
`reactVersion` stands for `React.version`. -/
def neofetchLines (reactVersion : String) : List String :=
  (splitOnChar NEOFETCH_ASCII (Char.ofNat 10)).enum.map (fun p =>
    let index := p.1
    let line := p.2
    if index = 2 then line ++ "    " ++ USERNAME ++ "@" ++ HOSTNAME
    else if index = 3 then line ++ "    -----------------"
    else if index = 4 then line ++ "    OS: Gemini Web Terminal"
    else if index = 5 then line ++ "    Kernel: React " ++ reactVersion
    else if index = 6 then line ++ "    Shell: TypeScript"
    else if index = 7 then line ++ "    Theme: DarkModern"
    else line)

/-! ## Session state (`Terminal.tsx`, the `useState` hooks) -/

/-- The session state of the `Terminal` component: one field per `useState`
hook that the command/session logic touches.  `isListening`, the clock and
the DOM refs are presentation/browser glue and are not part of the machine.
`documents` is the `Record<string, string>` embedded as an insertion-ordered
association list (object spread keeps the position of an overwritten key). -/
structure TermState where
  lines : List Line
  commandHistory : List String
  historyIndex : Int
  inputValue : String
  suggestions : List String
  isLoading : Bool
  isChatMode : Bool
  isChatDocMode : Bool
  documents : List (String × String)
  activeDoc : Option String
  lastImage : Option String
deriving DecidableEq, Repr

/-- The initial hook values (`useState(WELCOME_LINES)`, `useState(-1)`, ...). -/
def initState : TermState :=
  { lines := WELCOME_LINES
    commandHistory := []
    historyIndex := -1
    inputValue := ""
    suggestions := []
    isLoading := false
    isChatMode := false
    isChatDocMode := false
    documents := []
    activeDoc := none
    lastImage := none }

/-- Lookup in the document table (`documents[name]`, `undefined` as `none`). -/
def lookupDoc : List (String × String) → String → Option String
  | [], _ => none
  | (k, v) :: rest, name => if k = name then some v else lookupDoc rest name

/-- Object spread update `{ ...prev, [name]: content }`: overwrite in place
or append a new key. -/
def insertDoc : List (String × String) → String → String → List (String × String)
  | [], name, content => [(name, content)]
  | (k, v) :: rest, name, content =>
      if k = name then (k, content) :: rest
      else (k, v) :: insertDoc rest name content

/-! ## Backend interface (`src/services/geminiService.ts`)

The service functions are external collaborators.  Each submitted step is
parametrised by the responses the backend would produce during that step,
and the handlers record the entry points they actually invoked. -/

/-- `CodeResponse` from `geminiService.ts`. -/
structure CodeResponse where
  explanation : String
  code : String
deriving DecidableEq, Repr

/-- `EditedImageResponse` from `geminiService.ts` (`string | null` fields). -/
structure EditedImageResponse where
  image : Option String
  text : Option String
deriving DecidableEq, Repr

/-- The slice of an `Operation` that `Terminal.tsx` inspects: the `done` flag
and `response?.generatedVideos?.[0]?.video?.uri` collapsed to an option. -/
structure VideoOp where
  done : Bool
  uri : Option String
deriving DecidableEq, Repr

/-- `StreamEvent` from `geminiService.ts` (`searchWithGoogleStream`). -/
inductive SEvent
  | chunk (text : String)
  | sources (sources : List Source)
deriving DecidableEq, Repr

/-- The backend behaviour during one submitted step.  List fields are the
fragments the streaming producers yielded before completing (normally or by
raising — the source generators convert their own errors into a final text
fragment, so a raise can only come from the consumer side and is covered by
quantifying over the consumed prefix).  `Except.error` models a thrown
exception, carrying the message the `catch` block would extract. -/
structure StepEnv where
  askFrags : List String
  chatFrags : List String
  chatDocFrags : List String
  searchEvents : List SEvent
  codeResp : CodeResponse
  imageResp : String
  editResp : EditedImageResponse
  videoSubmit : Except String (String ⊕ VideoOp)
  videoPolls : List (Except String VideoOp)
  videoFetch : Except String String
  dateStr : String
  reactVersion : String
deriving Repr

/-- A `StepEnv` whose backend yields nothing and fails everything; used for
steps whose command does not consult the backend. -/
def quietEnv : StepEnv :=
  { askFrags := []
    chatFrags := []
    chatDocFrags := []
    searchEvents := []
    codeResp := ⟨"", ""⟩
    imageResp := ""
    editResp := ⟨none, none⟩
    videoSubmit := Except.error ""
    videoPolls := []
    videoFetch := Except.error ""
    dateStr := ""
    reactVersion := "" }

/-- Trace of backend entry points invoked during a step. -/
inductive BCall
  | askCall (prompt : String)
  | searchCall (prompt : String)
  | codeCall (prompt : String)
  | imageCall (prompt : String)
  | editImageCall (image : String) (prompt : String)
  | generateVideoCall (prompt : String)
  | startChatCall
  | startChatDocCall (doc : String)
  | sendChatMessageCall (message : String)
  | sendChatDocMessageCall (message : String)
deriving DecidableEq, Repr

/-! ## Streaming aggregation (`handleAsk` / `handleChat` /
`handleChatDocConversation` / `handleSearch`) -/

/-- Overwrite the `text` of the last record
(`newLines[newLines.length - 1].text = ...`).  The handlers only call this
on a non-empty list (they append a placeholder line first); on `[]` we
return `[]`. -/
def setLastText (lines : List Line) (t : String ⊕ List String) : List Line :=
  match lines.getLast? with
  | none => []
  | some l => lines.dropLast ++ [{ l with text := t }]

/-- Overwrite the `text` of the last record only when it is an OUTPUT line
(`if (lastLine.type === LineType.OUTPUT) lastLine.text = ...`). -/
def setLastTextIfOutput (lines : List Line) (t : String ⊕ List String) : List Line :=
  match lines.getLast? with
  | none => lines
  | some l =>
      if l.type = LineType.OUTPUT then lines.dropLast ++ [{ l with text := t }]
      else lines

/-- Concatenation of the yielded fragments (the running `streamedText`). -/
def concatFrags : List String → String
  | [] => ""
  | f :: fs => f ++ concatFrags fs

/-- One loop iteration of `handleAsk`/`handleChat`/`handleChatDocConversation`:
extend the buffer and overwrite the last line with it. -/
def streamChunkStep (p : List Line × String) (frag : String) : List Line × String :=
  let buf := p.2 ++ frag
  (setLastText p.1 (Sum.inl buf), buf)

/-- The whole text-streaming handler body: append the placeholder OUTPUT line,
consume the fragments, then (in `finally`) re-split the buffer on line breaks
into the final array.  `frags` is the list of fragments actually consumed, so
the same function covers normal completion and a raise after a prefix. -/
def runTextStream (lines : List Line) (frags : List String) : List Line :=
  let res := frags.foldl streamChunkStep (lines ++ [outLine (Sum.inl "")], "")
  setLastText res.1 (Sum.inr (splitOnChar res.2 (Char.ofNat 10)))

/-- One loop iteration of `handleSearch`: a `chunk` extends the buffer and
overwrites the last line when it is an OUTPUT line; a `sources` event
finalizes the last line when it is an OUTPUT line and appends a SOURCES
record.  The buffer always grows on chunks, displayed or not. -/
def searchStep (p : List Line × String) (ev : SEvent) : List Line × String :=
  match ev with
  | SEvent.chunk t =>
      let buf := p.2 ++ t
      (setLastTextIfOutput p.1 (Sum.inl buf), buf)
  | SEvent.sources srcs =>
      (setLastTextIfOutput p.1 (Sum.inr (splitOnChar p.2 (Char.ofNat 10))) ++ [sourcesLine srcs], p.2)

/-- The `finally` block of `handleSearch`: re-split the buffer into the last
line when that line is an OUTPUT line. -/
def searchFinalize (p : List Line × String) : List Line :=
  setLastTextIfOutput p.1 (Sum.inr (splitOnChar p.2 (Char.ofNat 10)))

/-- The whole `handleSearch` body over the list of consumed events. -/
def runSearchStream (lines : List Line) (events : List SEvent) : List Line :=
  searchFinalize (events.foldl searchStep (lines ++ [outLine (Sum.inl "")], ""))

/-! ## The `video` command (`Terminal.tsx`, case `'video'`) -/

/-- `pollMessages` from the `'video'` case. -/
def pollMessages : List String :=
  ["Still processing... The AI is animating the frames.",
   "Still processing... Polishing the final cut.",
   "Still processing... This is taking longer than usual, but we're still on it!"]

/-- The code after the poll loop: inspect the download link (JS truthiness,
so an empty-string uri also takes the no-video branch), fetch the media or
report the error; `finally` clears the busy flag on every path. -/
def videoFinish (st : TermState) (prompt : String) (op : VideoOp) (env : StepEnv) : TermState :=
  if optTruthy op.uri then
    let st1 := { st with lines := st.lines ++
      [sysLine "Video generated! Downloading and preparing for playback..."] }
    match env.videoFetch with
    | Except.error e =>
        { st1 with
            lines := st1.lines ++ [errLine ("Error: " ++ e)]
            isLoading := false }
    | Except.ok url =>
        { st1 with
            lines := st1.lines ++ [videoLine url prompt]
            isLoading := false }
  else
    { st with
        lines := st.lines ++
          [errLine "Video generation finished, but no video was returned. Please try a different prompt."]
        isLoading := false }

/-- The `while (!operation.done)` loop.  `polls` is the finite list of
`getVideosOperation` outcomes the backend produces; exhausting it with the
operation still pending means the loop never terminates, returned as `none`.
Each iteration first appends the rotating progress message (index capped at
the last message), then refreshes the operation; an exception is caught,
reported as an Error line, and the `finally` clears the busy flag. -/
def videoPollLoop (prompt : String) (env : StepEnv) :
    TermState → VideoOp → Nat → List (Except String VideoOp) → Option TermState
  | st, op, _, [] =>
      if op.done then some (videoFinish st prompt op env) else none
  | st, op, pollCount, p :: rest =>
      if op.done then some (videoFinish st prompt op env)
      else
        let msg := pollMessages.getD (min pollCount (pollMessages.length - 1)) ""
        let st1 := { st with lines := st.lines ++ [sysLine msg] }
        match p with
        | Except.error e =>
            some { st1 with
                     lines := st1.lines ++ [errLine ("Error: " ++ e)]
                     isLoading := false }
        | Except.ok op2 => videoPollLoop prompt env st1 op2 (pollCount + 1) rest

/-- The progress System lines the poll loop appends for poll counters
`n, n+1, ..., n+k-1` (each message index capped at the last message). -/
def pollProgressLines (n k : Nat) : List Line :=
  (List.range k).map (fun i =>
    sysLine (pollMessages.getD (min (n + i) (pollMessages.length - 1)) ""))

/-- The lines `videoFinish` appends, by case: truthy download link and a
fetch exception give the downloading System line plus an Error line; truthy
link and a successful fetch give the System line plus the Video line; a
missing (or empty) link gives the no-video Error line. -/
def videoFinishLines (prompt : String) (op : VideoOp) (env : StepEnv) : List Line :=
  if optTruthy op.uri then
    match env.videoFetch with
    | Except.error e =>
        [sysLine "Video generated! Downloading and preparing for playback...",
         errLine ("Error: " ++ e)]
    | Except.ok url =>
        [sysLine "Video generated! Downloading and preparing for playback...",
         videoLine url prompt]
  else
    [errLine "Video generation finished, but no video was returned. Please try a different prompt."]

/-- The whole `'video'` case: usage check, kickoff messages, submission
(`generateVideo` returns an error string or an operation; a thrown exception
is the `Except.error` alternative), then the poll loop. -/
def videoCmd (st : TermState) (env : StepEnv) (prompt : String) : Option TermState :=
  if prompt = "" then
    some { st with lines := st.lines ++ [errLine "Usage: video <a description of the video>"] }
  else
    let st1 := { st with
      isLoading := true
      lines := st.lines ++
        [sysLine ("Kicking off video generation for: \"" ++ prompt ++ "\""),
         sysLine "This can take a few minutes. Status will be checked periodically."] }
    match env.videoSubmit with
    | Except.error e =>
        some { st1 with
                 lines := st1.lines ++ [errLine ("Error: " ++ e)]
                 isLoading := false }
    | Except.ok (Sum.inl errStr) =>
        some { st1 with
                 lines := st1.lines ++ [errLine errStr]
                 isLoading := false }
    | Except.ok (Sum.inr op) => videoPollLoop prompt env st1 op 0 env.videoPolls

/-! ## Command dispatch (`processCommand`) -/

/-- `args.join(' ')`. -/
def joinSpace (args : List String) : String := String.intercalate " " args

/-- The body of the `switch (command.toLowerCase())` in `processCommand`.
Every branch appends its `outputLines` and applies its state updates; the
branches that `await` a backend call net the busy flag back to `false`.
Returns `none` only when the video poll loop never terminates. -/
def dispatch (st : TermState) (env : StepEnv) (command : String) (args : List String) :
    Option (TermState × List BCall) :=
  match toLowerStr command with
  | "help" => some ({ st with lines := st.lines ++ [outLine (Sum.inr HELP_TEXT)] }, [])
  | "clear" => some ({ st with lines := [] }, [])
  | "chat" =>
      if st.isChatDocMode then
        some ({ st with lines := st.lines ++
          [errLine "Already in document chat mode. Type `exit` to leave first."] }, [])
      else
        some ({ st with
                  isChatMode := true
                  lines := st.lines ++ [sysLine "Entered chat mode. Type 'exit' to leave."] },
              [BCall.startChatCall])
  | "ask" =>
      let prompt := joinSpace args
      if prompt = "" then
        some ({ st with lines := st.lines ++ [errLine "Usage: ask <your question>"] }, [])
      else
        some ({ st with
                  lines := runTextStream st.lines env.askFrags
                  isLoading := false },
              [BCall.askCall prompt])
  | "search" =>
      let prompt := joinSpace args
      if prompt = "" then
        some ({ st with lines := st.lines ++ [errLine "Usage: search <your question>"] }, [])
      else
        some ({ st with
                  lines := runSearchStream st.lines env.searchEvents
                  isLoading := false },
              [BCall.searchCall prompt])
  | "code" =>
      let prompt := joinSpace args
      if prompt = "" then
        some ({ st with lines := st.lines ++ [errLine "Usage: code <your coding question>"] }, [])
      else
        let expl := if env.codeResp.explanation = "" then []
          else [outLine (Sum.inr (splitOnChar env.codeResp.explanation (Char.ofNat 10)))]
        let cd := if env.codeResp.code = "" then [] else [codeLine env.codeResp.code]
        some ({ st with
                  lines := st.lines ++ expl ++ cd
                  isLoading := false },
              [BCall.codeCall prompt])
  | "image" =>
      let prompt := joinSpace args
      if prompt = "" then
        some ({ st with lines := st.lines ++ [errLine "Usage: image <a description of the image>"] }, [])
      else if startsWithStr env.imageResp "Error:" then
        some ({ st with
                  lines := st.lines ++ [errLine env.imageResp]
                  isLoading := false },
              [BCall.imageCall prompt])
      else
        some ({ st with
                  lines := st.lines ++ [imageLine env.imageResp prompt]
                  lastImage := some env.imageResp
                  isLoading := false },
              [BCall.imageCall prompt])
  | "editimg" =>
      let prompt := joinSpace args
      if prompt = "" then
        some ({ st with lines := st.lines ++ [errLine "Usage: editimg <your edit instruction>"] }, [])
      else if optTruthy st.lastImage then
        let img := st.lastImage.getD ""
        let textPart := if optTruthy env.editResp.text then
            [outLine (Sum.inr (splitOnChar (env.editResp.text.getD "") (Char.ofNat 10)))]
          else []
        let more :=
          if optTruthy env.editResp.image then
            ([imageLine (env.editResp.image.getD "") prompt], some (env.editResp.image.getD ""))
          else if optTruthy env.editResp.text then ([], st.lastImage)
          else ([errLine "The AI did not return a valid response."], st.lastImage)
        some ({ st with
                  lines := st.lines ++ textPart ++ more.1
                  lastImage := more.2
                  isLoading := false },
              [BCall.editImageCall img prompt])
      else
        some ({ st with lines := st.lines ++
          [errLine "No image to edit. Use the `image` command to generate one first."] }, [])
  | "video" =>
      let prompt := joinSpace args
      match videoCmd st env prompt with
      | none => none
      | some st2 =>
          some (st2, if prompt = "" then [] else [BCall.generateVideoCall prompt])
  | "upload" => some (st, [])
  | "docs" =>
      match args with
      | [] => some ({ st with lines := st.lines ++ [errLine "Usage: docs <list|select|clear>"] }, [])
      | sub :: rest =>
        match sub with
        | "list" =>
            let docKeys := st.documents.map Prod.fst
            if docKeys.isEmpty then
              some ({ st with lines := st.lines ++ [outLine (Sum.inl "No documents uploaded.")] }, [])
            else
              let docList := docKeys.map (fun name =>
                "  " ++ (if st.activeDoc = some name then "*" else " ") ++ " " ++ name)
              some ({ st with lines := st.lines ++
                [outLine (Sum.inl "Uploaded documents:"), outLine (Sum.inr docList)] }, [])
        | "select" =>
            match rest with
            | [] => some ({ st with lines := st.lines ++ [errLine "Usage: docs select <filename>"] }, [])
            | d :: _ =>
              if d = "" then
                some ({ st with lines := st.lines ++ [errLine "Usage: docs select <filename>"] }, [])
              else
                match lookupDoc st.documents d with
                | some c =>
                    if c = "" then
                      some ({ st with lines := st.lines ++
                        [errLine ("Document '" ++ d ++ "' not found.")] }, [])
                    else
                      some ({ st with
                                activeDoc := some d
                                lines := st.lines ++
                                  [sysLine ("Active document set to '" ++ d ++ "'.")] }, [])
                | none =>
                    some ({ st with lines := st.lines ++
                      [errLine ("Document '" ++ d ++ "' not found.")] }, [])
        | "clear" =>
            some ({ st with
                      documents := []
                      activeDoc := none
                      lines := st.lines ++ [sysLine "All documents cleared."] }, [])
        | _ => some ({ st with lines := st.lines ++ [errLine "Usage: docs <list|select|clear>"] }, [])
  | "chatdoc" =>
      if st.isChatMode then
        some ({ st with lines := st.lines ++
          [errLine "Already in regular chat mode. Type `exit` to leave first."] }, [])
      else if optTruthy st.activeDoc = false then
        some ({ st with lines := st.lines ++
          [errLine "No active document. Use `docs select <filename>` or `upload` a new file."] }, [])
      else if args.length > 0 then
        some ({ st with lines := st.lines ++
          [errLine "Usage: type `chatdoc` and press Enter to start a conversation."] }, [])
      else
        let name := st.activeDoc.getD ""
        some ({ st with
                  isChatDocMode := true
                  lines := st.lines ++
                    [sysLine ("Entered chat mode for '" ++ name ++ "'. Type 'exit' to leave.")] },
              [BCall.startChatDocCall ((lookupDoc st.documents name).getD "")])
  | "date" => some ({ st with lines := st.lines ++ [outLine (Sum.inl env.dateStr)] }, [])
  | "whoami" => some ({ st with lines := st.lines ++ [outLine (Sum.inl USERNAME)] }, [])
  | "about" => some ({ st with lines := st.lines ++ [outLine (Sum.inr ABOUT_TEXT)] }, [])
  | "neofetch" =>
      some ({ st with lines := st.lines ++
        [outLine (Sum.inr (neofetchLines env.reactVersion))] }, [])
  | _ => some ({ st with lines := st.lines ++
      [errLine ("command not found: " ++ command)] }, [])

/-- `commandStr.trim().split(' ').filter(Boolean)`. -/
def tokenize (commandStr : String) : List String :=
  (splitOnChar (trimStr commandStr) (Char.ofNat 32)).filter (fun t => t ≠ "")

/-- `processCommand`: tokenize, no-op on an empty command token, dispatch. -/
def processCommand (st : TermState) (env : StepEnv) (commandStr : String) :
    Option (TermState × List BCall) :=
  match tokenize commandStr with
  | [] => some (st, [])
  | command :: args => dispatch st env command args

/-! ## Chat-mode message handlers -/

/-- `handleChat`: a (lowercased) `exit` leaves chat mode, anything else is a
conversation message streamed through the text aggregator. -/
def handleChat (st : TermState) (env : StepEnv) (message : String) :
    TermState × List BCall :=
  if toLowerStr message = "exit" then
    ({ st with
         isChatMode := false
         lines := st.lines ++ [sysLine "Exited chat mode."] }, [])
  else
    ({ st with
         lines := runTextStream st.lines env.chatFrags
         isLoading := false },
     [BCall.sendChatMessageCall message])

/-- `handleChatDocConversation`: the document-chat analogue of `handleChat`. -/
def handleChatDocConversation (st : TermState) (env : StepEnv) (message : String) :
    TermState × List BCall :=
  if toLowerStr message = "exit" then
    ({ st with
         isChatDocMode := false
         lines := st.lines ++ [sysLine "Exited document chat mode."] }, [])
  else
    ({ st with
         lines := runTextStream st.lines env.chatDocFrags
         isLoading := false },
     [BCall.sendChatDocMessageCall message])

/-! ## File upload (`handleFileChange`) -/

/-- A selected file: its `name`, its reported MIME type (`none` models
`undefined`), and the result of `FileReader.readAsText`. -/
structure UploadFile where
  name : String
  mimeType : Option String
  readResult : Except String String
deriving Repr

/-- The guard `if (file.type && !file.type.startsWith('text/'))`:
rejected only when the reported type is truthy (non-empty) and does not
start with `text/`. -/
def mimeRejected : Option String → Bool
  | none => false
  | some t => if t = "" then false else !(startsWithStr t "text/")

/-- `handleFileChange`: no-op without a file; reject a non-text MIME type
before reading; on a successful read store the content under the filename
and auto-activate it when `!activeDoc` (JS truthiness: unset or empty
string); on a read failure report the reader error. -/
def handleFileChange (st : TermState) (f : Option UploadFile) : TermState :=
  match f with
  | none => st
  | some file =>
    if mimeRejected file.mimeType then
      { st with lines := st.lines ++
          [errLine ("Error: Cannot upload file of type '" ++ file.mimeType.getD "" ++
            "'. Please select a text file.")] }
    else
      match file.readResult with
      | Except.ok content =>
          { st with
              documents := insertDoc st.documents file.name content
              activeDoc := if optTruthy st.activeDoc then st.activeDoc else some file.name
              lines := st.lines ++
                [sysLine ("Successfully loaded '" ++ file.name ++ "' (" ++
                   toString content.length ++ " characters)."),
                 sysLine "Use `docs list` to see all files or `chatdoc` to start a conversation."] }
      | Except.error e =>
          { st with lines := st.lines ++ [errLine ("Error reading file: " ++ e)] }

/-! ## Input events (`handleSubmit`, `handleInputChange`, `handleKeyDown`) -/

/-- `handleSubmit`: clear suggestions, bail out while busy, echo the trimmed
input (SYSTEM prompt line in a chat mode, COMMAND line otherwise), then route:
empty input is a no-op (the chat modes keep the raw input value), chat modes
forward the input as a conversation message, and Normal mode records history,
resets the history cursor and dispatches the command.  Returns `none` only
when the dispatched command never terminates (video poll loop). -/
def handleSubmit (st0 : TermState) (env : StepEnv) : Option (TermState × List BCall) :=
  let st := { st0 with suggestions := [] }
  if st.isLoading then some (st, [])
  else
    let command := trimStr st.inputValue
    let lineType := if st.isChatMode || st.isChatDocMode then LineType.SYSTEM
      else LineType.COMMAND
    let st1 := { st with lines := st.lines ++ [⟨lineType, Sum.inl command, none⟩] }
    if command = "" && (st.isChatMode || st.isChatDocMode) then some (st1, [])
    else if command = "" then some ({ st1 with inputValue := "" }, [])
    else if st.isChatMode then
      let r := handleChat st1 env command
      some ({ r.1 with inputValue := "" }, r.2)
    else if st.isChatDocMode then
      let r := handleChatDocConversation st1 env command
      some ({ r.1 with inputValue := "" }, r.2)
    else
      let st2 := { st1 with
        commandHistory := command :: st1.commandHistory
        historyIndex := -1 }
      match processCommand st2 env command with
      | none => none
      | some (st3, calls) => some ({ st3 with inputValue := "" }, calls)

/-- `handleInputChange`: typing replaces the input value and clears any
shown suggestions. -/
def handleInputChange (st : TermState) (s : String) : TermState :=
  { st with inputValue := s, suggestions := [] }

/-- The keys `handleKeyDown` intercepts. -/
inductive Key
  | arrowUp
  | arrowDown
  | tab
deriving DecidableEq, Repr

/-- `handleKeyDown`: history recall on the arrow keys and prefix completion
on Tab, all disabled in the chat modes. -/
def handleKeyDown (st : TermState) (k : Key) : TermState :=
  let inAnyChatMode := st.isChatMode || st.isChatDocMode
  match k with
  | Key.arrowUp =>
      if inAnyChatMode then st
      else if st.historyIndex < (st.commandHistory.length : Int) - 1 then
        let newIndex := st.historyIndex + 1
        { st with
            historyIndex := newIndex
            inputValue := st.commandHistory.getD newIndex.toNat "" }
      else st
  | Key.arrowDown =>
      if inAnyChatMode then st
      else if st.historyIndex > 0 then
        let newIndex := st.historyIndex - 1
        { st with
            historyIndex := newIndex
            inputValue := st.commandHistory.getD newIndex.toNat "" }
      else { st with historyIndex := -1, inputValue := "" }
  | Key.tab =>
      if inAnyChatMode then st
      else
        let currentInput := (splitOnChar (trimStr st.inputValue) (Char.ofNat 32)).getD 0 ""
        if currentInput = "" then st
        else
          let ms := COMMANDS.filter (fun cmd => startsWithStr cmd currentInput)
          if ms.length = 1 then
            { st with inputValue := ms.getD 0 "" ++ " ", suggestions := [] }
          else if ms.length > 1 then { st with suggestions := ms }
          else st

/-! ## The session step machine -/

/-- One user event: typing into the input, submitting the form (with the
backend behaviour for that step), a key the terminal intercepts, or picking
a file in the hidden upload input. -/
inductive Ev
  | typeInput (s : String)
  | submit (env : StepEnv)
  | key (k : Key)
  | chooseFile (f : Option UploadFile)

/-- One step of the session machine. -/
def step (st : TermState) (ev : Ev) : Option (TermState × List BCall) :=
  match ev with
  | Ev.typeInput s => some (handleInputChange st s, [])
  | Ev.submit env => handleSubmit st env
  | Ev.key k => some (handleKeyDown st k, [])
  | Ev.chooseFile f => some (handleFileChange st f, [])

/-- Run a sequence of events; `none` once a step diverges. -/
def run : TermState → List Ev → Option TermState
  | st, [] => some st
  | st, ev :: evs =>
      match step st ev with
      | none => none
      | some (st1, _) => run st1 evs

/-! ## Concrete scenarios used by the claims -/

/-- The command tokens that have a `case` in `processCommand`: exactly the
registry `COMMANDS`. -/
def handledCommands : List String :=
  ["help", "clear", "chat", "ask", "search", "code", "image", "editimg", "video",
   "upload", "docs", "chatdoc", "date", "whoami", "about", "neofetch"]

/-- The C7 scenario: submit `a`, `b`, `c`, then ArrowUp three times and
ArrowDown once. -/
def c7events : List Ev :=
  [Ev.typeInput "a", Ev.submit quietEnv,
   Ev.typeInput "b", Ev.submit quietEnv,
   Ev.typeInput "c", Ev.submit quietEnv,
   Ev.key Key.arrowUp, Ev.key Key.arrowUp, Ev.key Key.arrowUp, Ev.key Key.arrowDown]

/-- The C1 scenario: upload a document, enter document chat, then submit the
text `chat`; the backend streams one fragment `hi` for the forwarded
message. -/
def c1events : List Ev :=
  [Ev.chooseFile (some ⟨"f.txt", some "text/plain", Except.ok "content"⟩),
   Ev.typeInput "chatdoc", Ev.submit quietEnv,
   Ev.typeInput "chat", Ev.submit { quietEnv with chatDocFrags := ["hi"] }]

/-- A session sitting in DocChat mode with `chat` typed into the input. -/
def c1DocState : TermState :=
  { initState with isChatDocMode := true, inputValue := "chat" }

/-- A session sitting in Chat mode with `chatdoc` typed into the input. -/
def c1ChatState : TermState :=
  { initState with isChatMode := true, inputValue := "chatdoc" }

/-- The C3 scenario: a chunk, a sources event, then another chunk. -/
def c3events : List SEvent :=
  [SEvent.chunk "a", SEvent.sources [⟨"t", "u"⟩], SEvent.chunk "b"]

/-- A backend whose video submission reports an immediate failure string. -/
def c4env : StepEnv :=
  { quietEnv with videoSubmit := Except.ok (Sum.inl "Error: no backend") }

/-- The state the `video` command reaches under `c4env` on prompt `x`. -/
def c4res : TermState :=
  { initState with
      isLoading := false
      lines := initState.lines ++
        [sysLine "Kicking off video generation for: \"x\"",
         sysLine "This can take a few minutes. Status will be checked periodically.",
         errLine "Error: no backend"] }

/-- A backend whose video submission returns a pending operation, whose
first poll is still pending, and whose second poll raises an exception. -/
def c4envPoll : StepEnv :=
  { quietEnv with
      videoSubmit := Except.ok (Sum.inr ⟨false, none⟩)
      videoPolls := [Except.ok ⟨false, none⟩, Except.error "network down"] }

/-- The state the `video` command reaches under `c4envPoll` on prompt `x`:
two kickoff lines, two progress lines, then the Error line from the caught
poll exception, with the busy flag cleared. -/
def c4resPoll : TermState :=
  { initState with
      isLoading := false
      lines := initState.lines ++
        [sysLine "Kicking off video generation for: \"x\"",
         sysLine "This can take a few minutes. Status will be checked periodically."] ++
        pollProgressLines 0 2 ++ [errLine "Error: network down"] }

/-- A backend whose media fetch raises an exception. -/
def c4envFetch : StepEnv := { quietEnv with videoFetch := Except.error "fetch failed" }

/-- The C5 scenario: upload an empty file (stored content `""`), then
`docs select` it. -/
def c5events : List Ev :=
  [Ev.chooseFile (some ⟨"f.txt", some "text/plain", Except.ok ""⟩),
   Ev.typeInput "docs select f.txt", Ev.submit quietEnv]

/-- The C6 scenario, first upload: a file whose reported name is the empty
string. -/
def c6events : List Ev :=
  [Ev.chooseFile (some ⟨"", some "text/plain", Except.ok "x"⟩)]

/-- The C6 scenario, second upload: a normally named file. -/
def c6events2 : List Ev :=
  c6events ++ [Ev.chooseFile (some ⟨"b.txt", some "text/plain", Except.ok "y"⟩)]

/-- A session with a non-empty-named active document. -/
def c6state : TermState := { initState with activeDoc := some "a.txt" }

/-! ## Helper lemmas -/

theorem setLastText_concat (ls : List Line) (l : Line) (t : String ⊕ List String) :
    setLastText (ls ++ [l]) t = ls ++ [{ l with text := t }] := by
  simp [setLastText]

theorem setLastTextIfOutput_concat (ls : List Line) (l : Line) (t : String ⊕ List String) :
    setLastTextIfOutput (ls ++ [l]) t =
      if l.type = LineType.OUTPUT then ls ++ [{ l with text := t }] else ls ++ [l] := by
  simp only [setLastTextIfOutput, List.getLast?_concat]
  split <;> simp_all

theorem streamFold_concat (frags : List String) (ls : List Line) (b : String) :
    frags.foldl streamChunkStep (ls ++ [outLine (Sum.inl b)], b)
      = (ls ++ [outLine (Sum.inl (b ++ concatFrags frags))], b ++ concatFrags frags) := by
  induction frags generalizing b with
  | nil => simp [concatFrags]
  | cons f fs ih =>
      simp only [List.foldl_cons, streamChunkStep, concatFrags]
      rw [setLastText_concat]
      have hline : ({ outLine (Sum.inl b) with text := Sum.inl (b ++ f) } : Line)
          = outLine (Sum.inl (b ++ f)) := rfl
      rw [hline, ih (b ++ f), String.append_assoc]

/-- The net effect of a text-streaming handler: exactly one OUTPUT line is
appended, whose final content is the concatenated buffer re-split on line
breaks. -/
theorem runTextStream_eq (lines : List Line) (frags : List String) :
    runTextStream lines frags
      = lines ++ [outLine (Sum.inr (splitOnChar (concatFrags frags) (Char.ofNat 10)))] := by
  unfold runTextStream
  rw [streamFold_concat frags lines ""]
  have hb : ("" : String) ++ concatFrags frags = concatFrags frags := by simp
  rw [hb, setLastText_concat]
  rfl

theorem videoFinish_spec (st : TermState) (prompt : String) (op : VideoOp) (env : StepEnv) :
    (videoFinish st prompt op env).isLoading = false
    ∧ (videoFinish st prompt op env).isChatMode = st.isChatMode
    ∧ (videoFinish st prompt op env).isChatDocMode = st.isChatDocMode := by
  unfold videoFinish
  split
  · cases env.videoFetch <;> simp
  · simp

theorem videoPollLoop_spec (prompt : String) (env : StepEnv) :
    ∀ (polls : List (Except String VideoOp)) (st : TermState) (op : VideoOp) (n : Nat)
      (st2 : TermState),
      videoPollLoop prompt env st op n polls = some st2 →
      st2.isLoading = false
      ∧ st2.isChatMode = st.isChatMode
      ∧ st2.isChatDocMode = st.isChatDocMode := by
  intro polls
  induction polls with
  | nil =>
      intro st op n st2 h
      unfold videoPollLoop at h
      split at h
      · obtain rfl : videoFinish st prompt op env = st2 := by simpa using h
        exact videoFinish_spec st prompt op env
      · simp at h
  | cons p rest ih =>
      intro st op n st2 h
      unfold videoPollLoop at h
      split at h
      · obtain rfl : videoFinish st prompt op env = st2 := by simpa using h
        exact videoFinish_spec st prompt op env
      · cases p with
        | error e =>
            simp only [Option.some.injEq] at h
            subst h
            simp
        | ok op2 =>
            have h2 : videoPollLoop prompt env
                { st with lines := st.lines ++
                    [sysLine (pollMessages.getD (min n (pollMessages.length - 1)) "")] }
                op2 (n + 1) rest = some st2 := h
            have := ih _ op2 (n + 1) st2 h2
            simpa using this

theorem videoCmd_spec (st : TermState) (env : StepEnv) (prompt : String) (st2 : TermState)
    (h : videoCmd st env prompt = some st2) :
    (st2.isLoading = false ∨ st2.isLoading = st.isLoading)
    ∧ st2.isChatMode = st.isChatMode
    ∧ st2.isChatDocMode = st.isChatDocMode := by
  unfold videoCmd at h
  split at h
  · simp only [Option.some.injEq] at h
    subst h
    exact ⟨Or.inr rfl, rfl, rfl⟩
  · split at h
    · simp only [Option.some.injEq] at h
      subst h
      exact ⟨Or.inl rfl, rfl, rfl⟩
    · simp only [Option.some.injEq] at h
      subst h
      exact ⟨Or.inl rfl, rfl, rfl⟩
    · have := videoPollLoop_spec prompt env env.videoPolls _ _ 0 st2 h
      exact ⟨Or.inl this.1, this.2.1, this.2.2⟩

/-- `videoFinish` always appends `videoFinishLines` and clears the busy
flag. -/
theorem videoFinish_eq (st : TermState) (prompt : String) (op : VideoOp) (env : StepEnv) :
    videoFinish st prompt op env
      = { st with
            lines := st.lines ++ videoFinishLines prompt op env
            isLoading := false } := by
  unfold videoFinish videoFinishLines
  split
  · cases env.videoFetch <;> simp
  · rfl

theorem pollProgressLines_succ (n k : Nat) :
    pollProgressLines n (k + 1)
      = sysLine (pollMessages.getD (min n (pollMessages.length - 1)) "")
          :: pollProgressLines (n + 1) k := by
  unfold pollProgressLines
  rw [List.range_succ_eq_map]
  simp only [List.map_cons, Nat.add_zero, List.map_map, Function.comp_def,
    Nat.succ_eq_add_one]
  refine congrArg₂ List.cons rfl (List.map_congr_left fun i _ => ?_)
  have h : n + (i + 1) = n + 1 + i := by omega
  rw [h]

/-- A completed operation exits the poll loop at once, whatever poll
outcomes remain. -/
theorem videoPollLoop_doneNow (prompt : String) (env : StepEnv) (st : TermState)
    (op : VideoOp) (n : Nat) (polls : List (Except String VideoOp)) (hd : op.done = true) :
    videoPollLoop prompt env st op n polls = some (videoFinish st prompt op env) := by
  cases polls <;> simp [videoPollLoop, hd]

/-- An exception raised by `getVideosOperation` terminates the loop: after
the pending polls `oks` the caught error appends its Error line and clears
the busy flag. -/
theorem videoPollLoop_pollError (prompt : String) (env : StepEnv) (e : String)
    (rest : List (Except String VideoOp)) :
    ∀ (oks : List VideoOp) (st : TermState) (op : VideoOp) (n : Nat),
      op.done = false → (∀ o ∈ oks, o.done = false) →
      videoPollLoop prompt env st op n (oks.map Except.ok ++ Except.error e :: rest)
        = some { st with
                   lines := st.lines ++ pollProgressLines n (oks.length + 1)
                     ++ [errLine ("Error: " ++ e)]
                   isLoading := false } := by
  intro oks
  induction oks with
  | nil =>
      intro st op n h0 _
      rw [List.map_nil, List.nil_append]
      unfold videoPollLoop
      rw [if_neg (by simp [h0])]
      dsimp only
      simp [pollProgressLines, List.range_succ, List.range_zero]
  | cons o oks ih =>
      intro st op n h0 hoks
      rw [List.map_cons, List.cons_append]
      unfold videoPollLoop
      rw [if_neg (by simp [h0])]
      dsimp only
      rw [ih _ o (n + 1) (hoks o (by simp)) (fun x hx => hoks x (by simp [hx]))]
      simp [pollProgressLines_succ, List.append_assoc]

/-- Reaching a completed operation after the pending polls `oks` exits the
loop into `videoFinish`. -/
theorem videoPollLoop_done (prompt : String) (env : StepEnv) (opd : VideoOp)
    (rest : List (Except String VideoOp)) (hopd : opd.done = true) :
    ∀ (oks : List VideoOp) (st : TermState) (op : VideoOp) (n : Nat),
      op.done = false → (∀ o ∈ oks, o.done = false) →
      videoPollLoop prompt env st op n (oks.map Except.ok ++ Except.ok opd :: rest)
        = some { st with
                   lines := st.lines ++ pollProgressLines n (oks.length + 1)
                     ++ videoFinishLines prompt opd env
                   isLoading := false } := by
  intro oks
  induction oks with
  | nil =>
      intro st op n h0 _
      rw [List.map_nil, List.nil_append]
      unfold videoPollLoop
      rw [if_neg (by simp [h0])]
      dsimp only
      rw [videoPollLoop_doneNow prompt env _ opd (n + 1) rest hopd, videoFinish_eq]
      simp [pollProgressLines, List.range_succ, List.range_zero, List.append_assoc]
  | cons o oks ih =>
      intro st op n h0 hoks
      rw [List.map_cons, List.cons_append]
      unfold videoPollLoop
      rw [if_neg (by simp [h0])]
      dsimp only
      rw [ih _ o (n + 1) (hoks o (by simp)) (fun x hx => hoks x (by simp [hx]))]
      simp [pollProgressLines_succ, List.append_assoc]

/-- `processCommand` is only ever invoked from Normal mode; from there it can
switch on at most one of the two chat flags. -/
theorem dispatch_modes (st : TermState) (env : StepEnv) (c : String) (args : List String)
    (st2 : TermState) (calls : List BCall)
    (h : dispatch st env c args = some (st2, calls))
    (h1 : st.isChatMode = false) (h2 : st.isChatDocMode = false) :
    (st2.isChatMode && st2.isChatDocMode) = false := by
  unfold dispatch at h
  split at h <;>
    (repeat' first
      | split at h
      | (dsimp only at h)) <;>
    first
      | (simp only [Option.some.injEq, Prod.mk.injEq] at h
         obtain ⟨rfl, -⟩ := h
         simp_all
         done)
      | (simp_all
         done)
      | (rename_i st3 heq3 hcond
         have := videoCmd_spec st env _ st3 heq3
         simp_all
         done)

theorem processCommand_modes (st : TermState) (env : StepEnv) (s : String)
    (st2 : TermState) (calls : List BCall)
    (h : processCommand st env s = some (st2, calls))
    (h1 : st.isChatMode = false) (h2 : st.isChatDocMode = false) :
    (st2.isChatMode && st2.isChatDocMode) = false := by
  unfold processCommand at h
  split at h
  · simp only [Option.some.injEq, Prod.mk.injEq] at h
    obtain ⟨rfl, -⟩ := h
    simp [h1, h2]
  · exact dispatch_modes _ _ _ _ _ _ h h1 h2

/-- One submission preserves mutual exclusion of the chat flags. -/
theorem handleSubmit_modes (st : TermState) (env : StepEnv) (st2 : TermState) (calls : List BCall)
    (h : handleSubmit st env = some (st2, calls))
    (hOK : (st.isChatMode && st.isChatDocMode) = false) :
    (st2.isChatMode && st2.isChatDocMode) = false := by
  unfold handleSubmit handleChat handleChatDocConversation at h
  repeat' first
    | split at h
    | (dsimp only at h)
  all_goals
    first
      | (simp only [Option.some.injEq, Prod.mk.injEq] at h
         obtain ⟨rfl, -⟩ := h
         simp_all
         done)
      | (simp_all
         done)
      | (have hflags := processCommand_modes _ env _ _ _ (by assumption) (by simp_all) (by simp_all)
         simp only [Option.some.injEq, Prod.mk.injEq] at h
         obtain ⟨rfl, -⟩ := h
         simpa using hflags
         done)

theorem handleFileChange_modes (st : TermState) (f : Option UploadFile) :
    (handleFileChange st f).isChatMode = st.isChatMode
    ∧ (handleFileChange st f).isChatDocMode = st.isChatDocMode := by
  unfold handleFileChange
  repeat' split
  all_goals simp

theorem handleKeyDown_modes (st : TermState) (k : Key) :
    (handleKeyDown st k).isChatMode = st.isChatMode
    ∧ (handleKeyDown st k).isChatDocMode = st.isChatDocMode := by
  unfold handleKeyDown
  cases k <;> (dsimp only; repeat' split) <;> simp

theorem step_modes (st : TermState) (ev : Ev) (st2 : TermState) (calls : List BCall)
    (h : step st ev = some (st2, calls))
    (hOK : (st.isChatMode && st.isChatDocMode) = false) :
    (st2.isChatMode && st2.isChatDocMode) = false := by
  cases ev with
  | typeInput s =>
      simp only [step, Option.some.injEq, Prod.mk.injEq] at h
      obtain ⟨rfl, -⟩ := h
      simpa [handleInputChange] using hOK
  | submit env => exact handleSubmit_modes st env st2 calls h hOK
  | key k =>
      simp only [step, Option.some.injEq, Prod.mk.injEq] at h
      obtain ⟨rfl, -⟩ := h
      have := handleKeyDown_modes st k
      rw [this.1, this.2]
      exact hOK
  | chooseFile f =>
      simp only [step, Option.some.injEq, Prod.mk.injEq] at h
      obtain ⟨rfl, -⟩ := h
      have := handleFileChange_modes st f
      rw [this.1, this.2]
      exact hOK

theorem run_modes :
    ∀ (evs : List Ev) (st st2 : TermState), run st evs = some st2 →
      (st.isChatMode && st.isChatDocMode) = false →
      (st2.isChatMode && st2.isChatDocMode) = false := by
  intro evs
  induction evs with
  | nil =>
      intro st st2 h hOK
      simp only [run, Option.some.injEq] at h
      subst h
      exact hOK
  | cons ev rest ih =>
      intro st st2 h hOK
      unfold run at h
      split at h
      · exact absurd h (by simp)
      · rename_i st1 calls heq
        exact ih st1 st2 h (step_modes st ev st1 calls heq hOK)

/-! ## Claim theorems -/

/-- C2: a streaming handler (`handleAsk`, `handleChat`,
`handleChatDocConversation`, all embedded as `runTextStream`) appends exactly
one Output line — whether the producer completes normally or raises after
yielding a prefix, `frags` being the consumed fragments in either case — and
its final content is the concatenation of the consumed fragments split on
line breaks; the result depends only on the concatenation (splitting the
same text differently into fragments changes nothing), and the empty
fragment sequence finalizes to the one-element list containing `""`. -/
theorem claim_streaming_finalization (lines : List Line) (frags : List String) :
    runTextStream lines frags
      = lines ++ [outLine (Sum.inr (splitOnChar (concatFrags frags) (Char.ofNat 10)))]
    ∧ runTextStream lines frags = runTextStream lines [concatFrags frags]
    ∧ runTextStream lines [] = lines ++ [outLine (Sum.inr [""])] := by
  refine ⟨runTextStream_eq lines frags, ?_, ?_⟩
  · rw [runTextStream_eq, runTextStream_eq]
    have hc : concatFrags [concatFrags frags] = concatFrags frags := by
      simp [concatFrags]
    rw [hc]
  · rw [runTextStream_eq]
    rfl

/-- C7: from the initial state (empty history, cursor `-1`, Normal mode),
submitting `a`, `b`, `c` and pressing Up, Up, Up, Down leaves the input
field containing `b`; the history is stored most-recent-first and the
cursor ends between the two older entries. -/
theorem claim_history_recall :
    (run initState c7events).map (fun s => (s.inputValue, s.historyIndex, s.commandHistory))
      = some ("b", 1, ["c", "b", "a"]) := by
  decide

/-- C8: with no remembered last image, `editimg` appends exactly one Error
line (the usage message when the prompt is empty, the no-image message
otherwise) and no backend entry point is invoked (the call trace is empty);
all other state is untouched. -/
theorem claim_editimg_requires_image (st : TermState) (env : StepEnv) (args : List String)
    (h : st.lastImage = none) :
    dispatch st env "editimg" args
      = some ({ st with lines := st.lines ++
          [errLine (if joinSpace args = "" then "Usage: editimg <your edit instruction>"
            else "No image to edit. Use the `image` command to generate one first.")] }, []) := by
  unfold dispatch
  split <;> rename_i heq
  all_goals try (exact absurd heq (by decide))
  all_goals try (exact absurd (show toLowerStr "editimg" = "editimg" by decide) (by assumption))
  dsimp only
  rw [h]
  by_cases hp : joinSpace args = "" <;> simp [hp, optTruthy]

/-- C8 witness: the theorem applied at the initial state with prompt `edit
something`, and at the same state with an empty prompt. -/
theorem claim_editimg_requires_image_w :
    dispatch initState quietEnv "editimg" ["edit", "something"]
      = some ({ initState with lines := initState.lines ++
          [errLine "No image to edit. Use the `image` command to generate one first."] }, [])
    ∧ dispatch initState quietEnv "editimg" []
      = some ({ initState with lines := initState.lines ++
          [errLine "Usage: editimg <your edit instruction>"] }, []) := by
  constructor
  · have := claim_editimg_requires_image initState quietEnv ["edit", "something"] rfl
    simpa using this
  · have := claim_editimg_requires_image initState quietEnv [] rfl
    simpa using this

set_option maxHeartbeats 1000000 in
/-- C9: the command token is lowercased before dispatch, so `HELP` and `Chat`
dispatch exactly as `help` and `chat`; a token whose lowercase form is not a
registered command takes the default case, which echoes the token in its
original (un-lowercased) spelling in the `command not found:` Error line. -/
theorem claim_case_insensitive_dispatch (st : TermState) (env : StepEnv)
    (tok : String) (args : List String)
    (h : toLowerStr tok ∉ handledCommands) :
    dispatch st env tok args
      = some ({ st with lines := st.lines ++ [errLine ("command not found: " ++ tok)] }, [])
    ∧ dispatch st env "HELP" args = dispatch st env "help" args
    ∧ dispatch st env "Chat" args = dispatch st env "chat" args := by
  refine ⟨?_, ?_, ?_⟩
  · unfold dispatch
    split <;> rename_i heq
    all_goals try rfl
    all_goals exact absurd heq (by simp_all [handledCommands])
  · unfold dispatch
    split <;> rename_i heq
    all_goals try (exact absurd heq (by decide))
    all_goals try (exact absurd (show toLowerStr "HELP" = "help" by decide) (by assumption))
    split <;> rename_i heq2
    all_goals try (exact absurd heq2 (by decide))
    all_goals try (exact absurd (show toLowerStr "help" = "help" by decide) (by assumption))
    rfl
  · unfold dispatch
    split <;> rename_i heq
    all_goals try (exact absurd heq (by decide))
    all_goals try (exact absurd (show toLowerStr "Chat" = "chat" by decide) (by assumption))
    split <;> rename_i hdoc <;>
      (split <;> rename_i heq2
       all_goals try (exact absurd heq2 (by decide))
       all_goals try (exact absurd (show toLowerStr "chat" = "chat" by decide) (by assumption))
       simp [hdoc])

/-- C9 witness: an unknown mixed-case token `FooBar` from the initial state:
the Error line echoes `FooBar`, not `foobar`. -/
theorem claim_case_insensitive_dispatch_w :
    dispatch initState quietEnv "FooBar" []
      = some ({ initState with lines := initState.lines ++
          [errLine "command not found: FooBar"] }, []) :=
  (claim_case_insensitive_dispatch initState quietEnv "FooBar" [] (by decide)).1

/-- C1 (amended): over every event sequence from the initial state the two
mode flags are never both true; however, submitting `chat` while DocChat is
active is forwarded to the document conversation as a message — it leaves
both flags unchanged and appends the SYSTEM prompt echo plus one Output
line, not an Error line (the cross-mode Error branches inside
`processCommand` are unreachable from submitted input, because a chat mode
routes every submission to its conversation handler).  Symmetrically for
`chatdoc` while Chat is active. -/
theorem claim_mode_exclusivity :
    (∀ (evs : List Ev) (st2 : TermState), run initState evs = some st2 →
      (st2.isChatMode && st2.isChatDocMode) = false)
    ∧ (∀ (st : TermState) (env : StepEnv),
        st.isChatMode = false → st.isChatDocMode = true → st.isLoading = false →
        st.inputValue = "chat" →
        handleSubmit st env = some
          ({ st with
               suggestions := []
               lines := st.lines ++ [⟨LineType.SYSTEM, Sum.inl "chat", none⟩,
                 outLine (Sum.inr (splitOnChar (concatFrags env.chatDocFrags) (Char.ofNat 10)))]
               inputValue := ""
               isLoading := false },
           [BCall.sendChatDocMessageCall "chat"]))
    ∧ (∀ (st : TermState) (env : StepEnv),
        st.isChatMode = true → st.isLoading = false →
        st.inputValue = "chatdoc" →
        handleSubmit st env = some
          ({ st with
               suggestions := []
               lines := st.lines ++ [⟨LineType.SYSTEM, Sum.inl "chatdoc", none⟩,
                 outLine (Sum.inr (splitOnChar (concatFrags env.chatFrags) (Char.ofNat 10)))]
               inputValue := ""
               isLoading := false },
           [BCall.sendChatMessageCall "chatdoc"]))
    := by
  refine ⟨fun evs st2 h => run_modes evs initState st2 h rfl, ?_, ?_⟩
  · intro st env hc hd hl hin
    have t1 : trimStr "chat" = "chat" := by decide
    have t2 : toLowerStr "chat" = "chat" := by decide
    unfold handleSubmit
    dsimp only
    rw [hin, t1, hl, hc, hd]
    unfold handleChatDocConversation
    rw [t2]
    dsimp only
    rw [runTextStream_eq]
    simp
  · intro st env hc hl hin
    have t1 : trimStr "chatdoc" = "chatdoc" := by decide
    have t2 : toLowerStr "chatdoc" = "chatdoc" := by decide
    unfold handleSubmit
    dsimp only
    rw [hin, t1, hl, hc]
    unfold handleChat
    rw [t2]
    dsimp only
    rw [runTextStream_eq]
    simp

/-- C1 counterexample: from the initial state, upload a document, enter
DocChat, then submit `chat`.  The final submission leaves DocChat active and
Chat inactive but appends a SYSTEM echo and an Output line — zero Error
lines — refuting the claim that it "appends exactly one Error line". -/
theorem claim_mode_exclusivity_cex :
    (run initState c1events).map
        (fun s => (s.isChatMode, s.isChatDocMode, s.lines.drop (initState.lines.length + 4)))
      = some (false, true,
          [⟨LineType.SYSTEM, Sum.inl "chat", none⟩, outLine (Sum.inr ["hi"])]) := by
  decide

/-- C1 witness: the invariant at the empty event sequence, and the two
forwarding conclusions at concrete in-mode states with the quiet backend. -/
theorem claim_mode_exclusivity_w :
    (initState.isChatMode && initState.isChatDocMode) = false
    ∧ handleSubmit c1DocState quietEnv = some
        ({ c1DocState with
             suggestions := []
             lines := c1DocState.lines ++ [⟨LineType.SYSTEM, Sum.inl "chat", none⟩,
               outLine (Sum.inr (splitOnChar (concatFrags quietEnv.chatDocFrags) (Char.ofNat 10)))]
             inputValue := ""
             isLoading := false },
         [BCall.sendChatDocMessageCall "chat"])
    ∧ handleSubmit c1ChatState quietEnv = some
        ({ c1ChatState with
             suggestions := []
             lines := c1ChatState.lines ++ [⟨LineType.SYSTEM, Sum.inl "chatdoc", none⟩,
               outLine (Sum.inr (splitOnChar (concatFrags quietEnv.chatFrags) (Char.ofNat 10)))]
             inputValue := ""
             isLoading := false },
         [BCall.sendChatMessageCall "chatdoc"]) :=
  ⟨claim_mode_exclusivity.1 [] initState rfl,
   claim_mode_exclusivity.2.1 c1DocState quietEnv rfl rfl rfl rfl,
   claim_mode_exclusivity.2.2 c1ChatState quietEnv rfl rfl rfl⟩

/-- C3 counterexample: for the event sequence chunk `a`, sources, chunk `b`,
the buffer ends as `ab`, but the text Output line keeps content `["a"]` —
the chunk arriving after the sources event and the end-of-stream
finalization never touch it, because the last line is by then the Sources
line.  The claim would require the line to end as `["ab"]`. -/
theorem claim_search_sources_cex :
    runSearchStream [] c3events
      = [outLine (Sum.inr ["a"]), sourcesLine [⟨"t", "u"⟩]]
    ∧ splitOnChar ("a" ++ "b") (Char.ofNat 10) = ["ab"]
    ∧ (["a"] : List String) ≠ ["ab"] := by
  decide

/-- C3 (amended): while the last line is the active text Output line, a
chunk overwrites it with the grown buffer and a sources event replaces its
content by the buffer split on line breaks and appends a separate Sources
line carrying the `{title, uri}` list.  Chunks arriving after a sources
event still accumulate into the same running buffer, but they no longer
update any line, and finalization (at a later sources event or at stream
end) is guarded on the last line being an Output line, so it leaves the
earlier text line unchanged. -/
theorem claim_search_sources (ls : List Line) (buf t : String)
    (x : String ⊕ List String) (srcs : List Source) (l : Line) :
    searchStep (ls ++ [outLine x], buf) (SEvent.chunk t)
      = (ls ++ [outLine (Sum.inl (buf ++ t))], buf ++ t)
    ∧ searchStep (ls ++ [outLine x], buf) (SEvent.sources srcs)
      = (ls ++ [outLine (Sum.inr (splitOnChar buf (Char.ofNat 10))), sourcesLine srcs], buf)
    ∧ (l.type ≠ LineType.OUTPUT →
        searchStep (ls ++ [l], buf) (SEvent.chunk t) = (ls ++ [l], buf ++ t))
    ∧ (l.type ≠ LineType.OUTPUT → searchFinalize (ls ++ [l], buf) = ls ++ [l]) := by
  refine ⟨?_, ?_, ?_, ?_⟩
  · simp [searchStep, setLastTextIfOutput_concat, outLine]
  · simp [searchStep, setLastTextIfOutput_concat, outLine]
  · intro hl
    simp [searchStep, setLastTextIfOutput_concat, hl]
  · intro hl
    simp [searchFinalize, setLastTextIfOutput_concat, hl]

/-- C3 witness: the amended theorem at the concrete counterexample trace —
the buffer `a` with an active Output line, then a post-sources chunk `b`
against a trailing Sources line, then finalization. -/
theorem claim_search_sources_w :
    searchStep ([outLine (Sum.inl "a")], "a") (SEvent.sources [⟨"t", "u"⟩])
      = ([outLine (Sum.inr ["a"]), sourcesLine [⟨"t", "u"⟩]], "a")
    ∧ searchStep ([outLine (Sum.inr ["a"]), sourcesLine [⟨"t", "u"⟩]], "a") (SEvent.chunk "b")
      = ([outLine (Sum.inr ["a"]), sourcesLine [⟨"t", "u"⟩]], "ab")
    ∧ searchFinalize ([outLine (Sum.inr ["a"]), sourcesLine [⟨"t", "u"⟩]], "ab")
      = [outLine (Sum.inr ["a"]), sourcesLine [⟨"t", "u"⟩]] := by
  refine ⟨?_, ?_, ?_⟩
  · have := (claim_search_sources [] "a" "b" (Sum.inl "a") [⟨"t", "u"⟩]
      (sourcesLine [⟨"t", "u"⟩])).2.1
    simpa using this
  · have := (claim_search_sources [outLine (Sum.inr ["a"])] "a" "b" (Sum.inl "a")
      [⟨"t", "u"⟩] (sourcesLine [⟨"t", "u"⟩])).2.2.1 (by decide)
    simpa using this
  · have := (claim_search_sources [outLine (Sum.inr ["a"])] "ab" "b" (Sum.inl "a")
      [⟨"t", "u"⟩] (sourcesLine [⟨"t", "u"⟩])).2.2.2 (by decide)
    simpa using this

/-- C4: whenever the `video` command terminates (any combination of
immediate failure string, successful or failed polls, media present or
absent, fetch success or exception), the busy flag is false in the state it
returns, given that it is false at entry (as `handleSubmit` guarantees).
In the immediate-failure case (error string instead of an operation) and in
the submission-exception case, the returned state is exactly the entry state
plus the two kickoff System lines and one Error line — no poll-progress
line, so the poll loop never ran.  An exception raised by a poll terminates
the loop right there: after the pending polls the caught error appends its
Error line (conjunct four).  Reaching a completed operation exits the loop
into the finishing code (conjuncts five and six), whose appended lines — an
Error line for a media-fetch exception, and an Error line when no media
reference is present — are pinned down by the last two conjuncts. -/
theorem claim_video_busy_cleanup (st : TermState) (env : StepEnv) (prompt : String)
    (st2 : TermState) (hL : st.isLoading = false)
    (h : videoCmd st env prompt = some st2) :
    st2.isLoading = false
    ∧ (∀ e, prompt ≠ "" → env.videoSubmit = Except.ok (Sum.inl e) →
        st2 = { st with
          isLoading := false
          lines := st.lines ++
            [sysLine ("Kicking off video generation for: \"" ++ prompt ++ "\""),
             sysLine "This can take a few minutes. Status will be checked periodically.",
             errLine e] })
    ∧ (∀ e, prompt ≠ "" → env.videoSubmit = Except.error e →
        st2 = { st with
          isLoading := false
          lines := st.lines ++
            [sysLine ("Kicking off video generation for: \"" ++ prompt ++ "\""),
             sysLine "This can take a few minutes. Status will be checked periodically.",
             errLine ("Error: " ++ e)] })
    ∧ (∀ (op0 : VideoOp) (oks : List VideoOp) (e : String)
          (rest : List (Except String VideoOp)),
        prompt ≠ "" → env.videoSubmit = Except.ok (Sum.inr op0) → op0.done = false →
        (∀ o ∈ oks, o.done = false) →
        env.videoPolls = oks.map Except.ok ++ Except.error e :: rest →
        st2 = { st with
          isLoading := false
          lines := st.lines ++
            [sysLine ("Kicking off video generation for: \"" ++ prompt ++ "\""),
             sysLine "This can take a few minutes. Status will be checked periodically."] ++
            pollProgressLines 0 (oks.length + 1) ++ [errLine ("Error: " ++ e)] })
    ∧ (∀ (op0 : VideoOp) (oks : List VideoOp) (opd : VideoOp)
          (rest : List (Except String VideoOp)),
        prompt ≠ "" → env.videoSubmit = Except.ok (Sum.inr op0) → op0.done = false →
        (∀ o ∈ oks, o.done = false) →
        env.videoPolls = oks.map Except.ok ++ Except.ok opd :: rest → opd.done = true →
        st2 = { st with
          isLoading := false
          lines := st.lines ++
            [sysLine ("Kicking off video generation for: \"" ++ prompt ++ "\""),
             sysLine "This can take a few minutes. Status will be checked periodically."] ++
            pollProgressLines 0 (oks.length + 1) ++ videoFinishLines prompt opd env })
    ∧ (∀ (op0 : VideoOp),
        prompt ≠ "" → env.videoSubmit = Except.ok (Sum.inr op0) → op0.done = true →
        st2 = { st with
          isLoading := false
          lines := st.lines ++
            [sysLine ("Kicking off video generation for: \"" ++ prompt ++ "\""),
             sysLine "This can take a few minutes. Status will be checked periodically."] ++
            videoFinishLines prompt op0 env })
    ∧ (∀ (op : VideoOp) (e : String),
        optTruthy op.uri = true → env.videoFetch = Except.error e →
        videoFinishLines prompt op env
          = [sysLine "Video generated! Downloading and preparing for playback...",
             errLine ("Error: " ++ e)])
    ∧ (∀ (op : VideoOp), optTruthy op.uri = false →
        videoFinishLines prompt op env
          = [errLine "Video generation finished, but no video was returned. Please try a different prompt."]) := by
  refine ⟨?_, ?_, ?_, ?_, ?_, ?_, ?_, ?_⟩
  · rcases (videoCmd_spec st env prompt st2 h).1 with h0 | h0
    · exact h0
    · rw [h0, hL]
  · intro e hne hsub
    unfold videoCmd at h
    rw [if_neg hne, hsub] at h
    dsimp only at h
    simp only [Option.some.injEq] at h
    subst h
    simp
  · intro e hne hsub
    unfold videoCmd at h
    rw [if_neg hne, hsub] at h
    dsimp only at h
    simp only [Option.some.injEq] at h
    subst h
    simp
  · intro op0 oks e rest hne hsub h0 hoks hpolls
    unfold videoCmd at h
    rw [if_neg hne, hsub] at h
    dsimp only at h
    rw [hpolls, videoPollLoop_pollError prompt env e rest oks _ op0 0 h0 hoks] at h
    simp only [Option.some.injEq] at h
    subst h
    simp [List.append_assoc]
  · intro op0 oks opd rest hne hsub h0 hoks hpolls hopd
    unfold videoCmd at h
    rw [if_neg hne, hsub] at h
    dsimp only at h
    rw [hpolls, videoPollLoop_done prompt env opd rest hopd oks _ op0 0 h0 hoks] at h
    simp only [Option.some.injEq] at h
    subst h
    simp [List.append_assoc]
  · intro op0 hne hsub h0
    unfold videoCmd at h
    rw [if_neg hne, hsub] at h
    dsimp only at h
    rw [videoPollLoop_doneNow prompt env _ op0 0 env.videoPolls h0, videoFinish_eq] at h
    simp only [Option.some.injEq] at h
    subst h
    simp [List.append_assoc]
  · intro op e huri hfetch
    simp [videoFinishLines, huri, hfetch]
  · intro op huri
    simp [videoFinishLines, huri]

/-- C4 witness: the theorem at the initial state with a backend whose
submission returns an immediate error string; with a backend whose second
poll raises an exception (conjunct four pins the poll-exception state); and
with a backend whose media fetch raises an exception (conjunct seven pins
the finishing Error line). -/
theorem claim_video_busy_cleanup_w :
    (videoCmd initState c4env "x" = some c4res ∧ c4res.isLoading = false)
    ∧ (videoCmd initState c4envPoll "x" = some c4resPoll
        ∧ c4resPoll.isLoading = false
        ∧ c4resPoll = { initState with
            isLoading := false
            lines := initState.lines ++
              [sysLine "Kicking off video generation for: \"x\"",
               sysLine "This can take a few minutes. Status will be checked periodically."] ++
              pollProgressLines 0 ([(⟨false, none⟩ : VideoOp)].length + 1) ++
              [errLine "Error: network down"] })
    ∧ videoFinishLines "x" ⟨true, some "u"⟩ c4envFetch
        = [sysLine "Video generated! Downloading and preparing for playback...",
           errLine "Error: fetch failed"] := by
  have hx : videoCmd initState c4env "x" = some c4res := by decide
  have hp : videoCmd initState c4envPoll "x" = some c4resPoll := by decide
  refine ⟨⟨hx, (claim_video_busy_cleanup initState c4env "x" c4res rfl hx).1⟩,
    ⟨hp, (claim_video_busy_cleanup initState c4envPoll "x" c4resPoll rfl hp).1, ?_⟩, ?_⟩
  · exact (claim_video_busy_cleanup initState c4envPoll "x" c4resPoll rfl hp).2.2.2.1
      ⟨false, none⟩ [⟨false, none⟩] "network down" [] (by decide) rfl rfl (by decide) rfl
  · exact (claim_video_busy_cleanup initState c4envFetch "x"
        ((videoCmd initState c4envFetch "x").getD initState) rfl (by decide)).2.2.2.2.2.2.1
      ⟨true, some "u"⟩ "fetch failed" (by decide) rfl

/-- Reduction of the `docs select` case of the dispatcher. -/
theorem dispatch_docs_select (st : TermState) (env : StepEnv) (d : String) :
    dispatch st env "docs" ["select", d]
      = (if d = "" then
          some ({ st with lines := st.lines ++ [errLine "Usage: docs select <filename>"] }, [])
        else
          match lookupDoc st.documents d with
          | some c =>
              if c = "" then
                some ({ st with lines := st.lines ++
                  [errLine ("Document '" ++ d ++ "' not found.")] }, [])
              else
                some ({ st with
                          activeDoc := some d
                          lines := st.lines ++
                            [sysLine ("Active document set to '" ++ d ++ "'.")] }, [])
          | none =>
              some ({ st with lines := st.lines ++
                [errLine ("Document '" ++ d ++ "' not found.")] }, [])) := rfl

/-- C5 (amended): `docs select <name>` activates `<name>` and appends the
System confirmation only when `<name>` is bound to *non-empty* content
(the source tests `documents[name]` for truthiness, so a key holding the
empty string is treated as missing); when `<name>` is absent — or present
with empty content — it appends the `not found` Error line and leaves
`activeDocument` and the table unchanged. -/
theorem claim_docs_select (st : TermState) (env : StepEnv) (d : String) (hd : d ≠ "") :
    (∀ c, lookupDoc st.documents d = some c → c ≠ "" →
      dispatch st env "docs" ["select", d]
        = some ({ st with
                    activeDoc := some d
                    lines := st.lines ++
                      [sysLine ("Active document set to '" ++ d ++ "'.")] }, []))
    ∧ (lookupDoc st.documents d = none →
      dispatch st env "docs" ["select", d]
        = some ({ st with lines := st.lines ++
            [errLine ("Document '" ++ d ++ "' not found.")] }, []))
    ∧ (lookupDoc st.documents d = some "" →
      dispatch st env "docs" ["select", d]
        = some ({ st with lines := st.lines ++
            [errLine ("Document '" ++ d ++ "' not found.")] }, [])) := by
  refine ⟨?_, ?_, ?_⟩
  · intro c hc hcne
    rw [dispatch_docs_select, if_neg hd, hc]
    dsimp only
    rw [if_neg hcne]
  · intro hnone
    rw [dispatch_docs_select, if_neg hd, hnone]
  · intro hempty
    rw [dispatch_docs_select, if_neg hd, hempty]
    rfl

/-- C5 counterexample: upload an empty file (its content `""` is stored
under `f.txt` and auto-activated), then `docs select f.txt`.  The name is a
key of the table, yet the step appends the `not found` Error line instead
of a System confirmation. -/
theorem claim_docs_select_cex :
    (run initState c5events).map
        (fun s => (s.activeDoc, lookupDoc s.documents "f.txt",
          s.lines.drop (initState.lines.length + 2)))
      = some (some "f.txt", some "",
          [⟨LineType.COMMAND, Sum.inl "docs select f.txt", none⟩,
           errLine "Document 'f.txt' not found."]) := by
  decide

/-- C5 witness: the amended theorem on a table binding `a.txt` to non-empty
content (activation) and on the same table with an absent name (error,
state unchanged). -/
theorem claim_docs_select_w :
    dispatch { initState with documents := [("a.txt", "body")] } quietEnv
        "docs" ["select", "a.txt"]
      = some ({ initState with
                  documents := [("a.txt", "body")]
                  activeDoc := some "a.txt"
                  lines := initState.lines ++
                    [sysLine "Active document set to 'a.txt'."] }, [])
    ∧ dispatch { initState with documents := [("a.txt", "body")] } quietEnv
        "docs" ["select", "missing.txt"]
      = some ({ initState with
                  documents := [("a.txt", "body")]
                  lines := initState.lines ++
                    [errLine "Document 'missing.txt' not found."] }, []) := by
  constructor
  · have := (claim_docs_select { initState with documents := [("a.txt", "body")] }
      quietEnv "a.txt" (by decide)).1 "body" (by decide) (by decide)
    simpa using this
  · have := (claim_docs_select { initState with documents := [("a.txt", "body")] }
      quietEnv "missing.txt" (by decide)).2.1 (by decide)
    simpa using this

theorem lookupDoc_insertDoc (docs : List (String × String)) (name content : String) :
    lookupDoc (insertDoc docs name content) name = some content := by
  induction docs with
  | nil => simp [insertDoc, lookupDoc]
  | cons kv rest ih =>
      obtain ⟨k, v⟩ := kv
      by_cases hk : k = name
      · simp [insertDoc, lookupDoc, hk]
      · simp [insertDoc, lookupDoc, hk, ih]

/-- C6 (amended): a successful upload (MIME guard passed, read succeeded)
always stores the content under the filename; it sets that filename active
when `activeDocument` is unset *or holds the empty-string filename* (the
source tests `!activeDoc`, and the empty string is falsy), and it never
changes `activeDocument` while a document with a non-empty name is
active. -/
theorem claim_upload_activation (st : TermState) (name content : String) (mt : Option String)
    (hm : mimeRejected mt = false) :
    lookupDoc (handleFileChange st (some ⟨name, mt, Except.ok content⟩)).documents name
      = some content
    ∧ ((st.activeDoc = none ∨ st.activeDoc = some "") →
        (handleFileChange st (some ⟨name, mt, Except.ok content⟩)).activeDoc = some name)
    ∧ (∀ n, st.activeDoc = some n → n ≠ "" →
        (handleFileChange st (some ⟨name, mt, Except.ok content⟩)).activeDoc = some n) := by
  refine ⟨?_, ?_, ?_⟩
  · simp only [handleFileChange, hm, Bool.false_eq_true, if_false]
    exact lookupDoc_insertDoc st.documents name content
  · rintro (ha | ha) <;> simp [handleFileChange, hm, ha, optTruthy]
  · intro n ha hn
    simp [handleFileChange, hm, ha, optTruthy, hn]

/-- C6 counterexample: upload a file whose reported name is the empty
string — it is stored under `""` and becomes the active document.  A second
upload then changes `activeDocument` from `some ""` to `some "b.txt"`,
although a document was already active, because the source's `!activeDoc`
truthiness test treats the empty-string filename as unset. -/
theorem claim_upload_activation_cex :
    (run initState c6events).map (fun s => (s.activeDoc, lookupDoc s.documents ""))
      = some (some "", some "x")
    ∧ (run initState c6events2).map (fun s => s.activeDoc) = some (some "b.txt") := by
  decide

/-- C6 witness: a first upload into the initial state is stored and
activated; an upload while `a.txt` is active stores the file but keeps
`a.txt` active. -/
theorem claim_upload_activation_w :
    lookupDoc (handleFileChange initState
        (some ⟨"a.txt", none, Except.ok "hi"⟩)).documents "a.txt" = some "hi"
    ∧ (handleFileChange initState (some ⟨"a.txt", none, Except.ok "hi"⟩)).activeDoc
        = some "a.txt"
    ∧ (handleFileChange c6state (some ⟨"b.txt", none, Except.ok "y"⟩)).activeDoc
        = some "a.txt" := by
  refine ⟨(claim_upload_activation initState "a.txt" "hi" none rfl).1,
    (claim_upload_activation initState "a.txt" "hi" none rfl).2.1 (Or.inl rfl),
    (claim_upload_activation c6state "b.txt" "y" none rfl).2.2 "a.txt" rfl (by decide)⟩

/-- C10: the upload MIME guard rejects exactly when the reported type is a
non-empty string not starting with `text/`; a rejected file produces one
Error line and is not read or stored; a file whose reported type is
undefined or the empty string bypasses the guard, and a passing read is
stored like a text file. -/
theorem claim_upload_mime_guard (st : TermState) (name content : String) (mt : Option String) :
    (mimeRejected mt = true ↔
      ∃ s, mt = some s ∧ s ≠ "" ∧ startsWithStr s "text/" = false)
    ∧ ((mt = none ∨ mt = some "") → mimeRejected mt = false)
    ∧ (mimeRejected mt = true →
        handleFileChange st (some ⟨name, mt, Except.ok content⟩)
          = { st with lines := st.lines ++
              [errLine ("Error: Cannot upload file of type '" ++ mt.getD "" ++
                "'. Please select a text file.")] })
    ∧ (mimeRejected mt = false →
        (handleFileChange st (some ⟨name, mt, Except.ok content⟩)).documents
          = insertDoc st.documents name content) := by
  refine ⟨?_, ?_, ?_, ?_⟩
  · cases mt with
    | none => simp [mimeRejected]
    | some t =>
        by_cases ht : t = ""
        · simp [mimeRejected, ht]
        · simp only [mimeRejected, if_neg ht, Bool.not_eq_true']
          constructor
          · intro hs
            exact ⟨t, rfl, ht, by simpa using hs⟩
          · rintro ⟨s, hse, -, hsw⟩
            obtain rfl : t = s := by injection hse
            simpa using hsw
  · rintro (hmt | hmt) <;> rw [hmt] <;> simp [mimeRejected]
  · intro hrej
    simp [handleFileChange, hrej]
  · intro hok
    simp [handleFileChange, hok]

/-- C10 witness: a file with no reported MIME type is stored; `image/png` is
rejected; the empty-string type passes the guard. -/
theorem claim_upload_mime_guard_w :
    (handleFileChange initState (some ⟨"f.md", none, Except.ok "hi"⟩)).documents
      = [("f.md", "hi")]
    ∧ mimeRejected (some "image/png") = true
    ∧ mimeRejected (some "") = false
    ∧ handleFileChange initState (some ⟨"img.png", some "image/png", Except.ok "zz"⟩)
        = { initState with lines := initState.lines ++
            [errLine "Error: Cannot upload file of type 'image/png'. Please select a text file."] } := by
  refine ⟨?_, ?_, ?_, ?_⟩
  · have := (claim_upload_mime_guard initState "f.md" "hi" none).2.2.2 rfl
    simpa [insertDoc] using this
  · exact (claim_upload_mime_guard initState "f.md" "hi" (some "image/png")).1.mpr
      ⟨"image/png", rfl, by decide, by decide⟩
  · exact (claim_upload_mime_guard initState "f.md" "hi" (some "")).2.1 (Or.inr rfl)
  · have := (claim_upload_mime_guard initState "img.png" "zz" (some "image/png")).2.2.1
      (by decide)
    simpa using this

end GeminiTerm
